import Mathlib

/-!
Verification development for the Plottable fragments:
`src/components/horizontalLegend.ts`, `src/dataSource.ts`, and the
`XDragBoxLayer` test suite.  Widths, heights and coordinates are JavaScript
numbers; they are embedded as rationals (`ℚ`), with the two places where
IEEE special values can arise (division by zero in `_requestedSpace`,
`d3.max` of an empty list) modelled explicitly.
-/

namespace Plottable

/-! ## HorizontalLegend (`src/components/horizontalLegend.ts`) -/

/-- Embeds the private field `padding = 5` of `HorizontalLegend`. -/
def legendPadding : ℚ := 5

/-- Embeds the body of the `entries.forEach` loop of `sizeEntries`
(line 103): `entryLengths[e] = Math.min(textHeight + measure(e).width + padding,
availableWidth)`.  The DOM text measurer is the parameter `measure`. -/
def entryLength (measure : String → ℚ) (textHeight padding availableWidth : ℚ)
    (e : String) : ℚ :=
  min (textHeight + measure e + padding) availableWidth

/-- Embeds one iteration of the `forEach` loop of `packRows` (lines 114-124).
State is `(rows so far, current row, spaceLeft)`; the JavaScript keeps the
current row inside `rows` by reference, here it is carried separately and
appended at the end. -/
def packStep (lens : String → ℚ) (availableWidth : ℚ)
    (s : List (List String) × List String × ℚ) (e : String) :
    List (List String) × List String × ℚ :=
  let entryLen := lens e
  if entryLen > s.2.2 then
    -- allocate new row
    (s.1 ++ [s.2.1], [e], availableWidth - entryLen)
  else
    (s.1, s.2.1 ++ [e], s.2.2 - entryLen)

/-- Embeds `packRows` (lines 110-125): starting from `rows = [[]]` and
`spaceLeft = availableWidth`, fold `packStep` over the color-scale domain.
`lens` stands for the `entryLengths` dictionary. -/
def packRows (lens : String → ℚ) (availableWidth : ℚ)
    (domain : List String) : List (List String) :=
  let s := domain.foldl (packStep lens availableWidth) ([], [], availableWidth)
  s.1 ++ [s.2.1]

/-- Embeds `sizeEntries` (lines 93-108): it fills the `entryLengths`
dictionary (here a total function, since the stored value depends only on the
key) and calls `packRows`.  `textHeight` stands for the measured
`measure(HEIGHT_TEXT).height`. -/
def sizeEntries (measure : String → ℚ) (textHeight padding : ℚ)
    (domain : List String) (availableWidth : ℚ) :
    (String → ℚ) × List (List String) :=
  (entryLength measure textHeight padding availableWidth,
   packRows (entryLength measure textHeight padding availableWidth)
     availableWidth domain)

/-- Embeds `d3.sum(row, entry => entryLengths[entry])` (line 69). -/
def rowSum (lens : String → ℚ) (row : List String) : ℚ :=
  (row.map lens).sum

/-- Embeds `d3.max` on a list of numbers: `none` models the `undefined`
returned on an empty list (line 72). -/
def d3max : List ℚ → Option ℚ
  | [] => none
  | x :: xs => some (xs.foldl max x)

/-- Embeds lines 76-80 of `_requestedSpace`:
`rowsAvailable = Math.floor((offeredHeight - 2 * padding) / textHeight)`,
the NaN check that resets it to `0`, and
`numRowsToDraw = Math.min(rowsAvailable, rows.length)`.
When `textHeight = 0` the JavaScript division produces NaN (numerator 0,
caught by the check), `+Infinity` (positive numerator, so the `min` yields
`rows.length`) or `-Infinity` (negative numerator); `none` models the
`-Infinity` outcome, which no later check catches. -/
def numRowsToDraw (offeredHeight padding textHeight : ℚ) (numRows : ℕ) :
    Option ℤ :=
  if textHeight = 0 then
    if offeredHeight - 2 * padding = 0 then some (min 0 (numRows : ℤ))
    else if 0 < offeredHeight - 2 * padding then some (numRows : ℤ)
    else none
  else
    some (min ⌊(offeredHeight - 2 * padding) / textHeight⌋ (numRows : ℤ))

/-- Embeds `acceptableHeight = this.numRowsToDraw * this.textHeight + 2 *
this.padding` (line 82); `none` propagates the NaN produced by
`-Infinity * 0`. -/
def acceptableHeight (offeredHeight padding textHeight : ℚ) (numRows : ℕ) :
    Option ℚ :=
  (numRowsToDraw offeredHeight padding textHeight numRows).map
    (fun k => (k : ℚ) * textHeight + 2 * padding)

/-- Embeds `desiredHeight = this.rows.length * this.textHeight + 2 *
this.padding` (line 83). -/
def desiredHeight (textHeight padding : ℚ) (numRows : ℕ) : ℚ :=
  (numRows : ℚ) * textHeight + 2 * padding

/-- Embeds the `ISpaceRequest` record returned by `_requestedSpace`
(lines 85-90); the `height` field is an `Option` because the JavaScript
value can be NaN. -/
structure ISpaceRequest where
  width : ℚ
  height : Option ℚ
  wantsWidth : Bool
  wantsHeight : Bool
  deriving Repr, DecidableEq

/-- Embeds `_requestedSpace` (lines 61-91) on the recomputation path
(`offeredWidth !== previousOfferedWidth`; the cached path reuses the same
values).  `availableWidthForEntries = Math.max(0, offeredWidth - padding)`,
then `sizeEntries`, row lengths, `d3.max` with the `undefined`-to-`0`
fallback of line 73, and the two height computations. -/
def requestedSpace (measure : String → ℚ) (textHeight padding : ℚ)
    (domain : List String) (offeredWidth offeredHeight : ℚ) : ISpaceRequest :=
  let availableWidthForEntries := max 0 (offeredWidth - padding)
  let sized := sizeEntries measure textHeight padding domain
    availableWidthForEntries
  let lens := sized.1
  let rows := sized.2
  let rowLengths := rows.map (rowSum lens)
  let longestRowLength := (d3max rowLengths).getD 0
  let desiredWidth := padding + longestRowLength
  { width := desiredWidth
    height := acceptableHeight offeredHeight padding textHeight rows.length
    wantsWidth := decide (offeredWidth < desiredWidth)
    wantsHeight :=
      decide (offeredHeight < desiredHeight textHeight padding rows.length) }

/-- Single-pass recursive form of `packRows`: structural recursion over the
domain, one step per entry, used to state that the fold is a bounded single
pass. -/
def packRowsRec (lens : String → ℚ) (availableWidth : ℚ)
    (acc : List (List String)) (cur : List String) (spaceLeft : ℚ) :
    List String → List (List String)
  | [] => acc ++ [cur]
  | e :: rest =>
    if lens e > spaceLeft then
      packRowsRec lens availableWidth (acc ++ [cur]) [e]
        (availableWidth - lens e) rest
    else
      packRowsRec lens availableWidth acc (cur ++ [e])
        (spaceLeft - lens e) rest

/-! ## DataSource (`src/dataSource.ts`) -/

/-- Embeds the `DataSource` object state: the private fields `_data` and
`_metadata` (a `none` models the JavaScript `null`), plus a counter of
`_broadcast()` calls standing for the notifications sent to registered
listeners. -/
structure DataSource (α μ : Type) where
  _data : Option (List α)
  _metadata : Option μ
  broadcastCount : ℕ
  deriving Repr, DecidableEq

/-- Embeds the `DataSource` constructor (lines 15-19) applied to explicit
arguments. -/
def DataSource.mk' (data : Option (List α)) (metadata : Option μ) :
    DataSource α μ :=
  { _data := data, _metadata := metadata, broadcastCount := 0 }

/-- Embeds the method `data(data?)` (lines 29-37).  The argument `none`
models a `null` or `undefined` argument (the `data == null` loose check
matches both); the result pairs the post-call object state with the return
value, `Sum.inl` for the getter branch returning `this._data` and `Sum.inr`
for the setter branch returning `this`. -/
def DataSource.data (ds : DataSource α μ) (arg : Option (List α)) :
    DataSource α μ × (Option (List α) ⊕ DataSource α μ) :=
  match arg with
  | none => (ds, Sum.inl ds._data)
  | some d =>
    let ds' : DataSource α μ :=
      { ds with _data := some d, broadcastCount := ds.broadcastCount + 1 }
    (ds', Sum.inr ds')

/-- Embeds the method `metadata(metadata?)` (lines 47-55), mirroring
`data`. -/
def DataSource.metadata (ds : DataSource α μ) (arg : Option μ) :
    DataSource α μ × (Option μ ⊕ DataSource α μ) :=
  match arg with
  | none => (ds, Sum.inl ds._metadata)
  | some m =>
    let ds' : DataSource α μ :=
      { ds with _metadata := some m, broadcastCount := ds.broadcastCount + 1 }
    (ds', Sum.inr ds')

/-! ## XDragBoxLayer (tests in `src/unnamed/part_000`) -/

/-- Corner coordinates of the selection box, as read back by `bounds()`. -/
structure Bounds where
  topLeftX : ℚ
  topLeftY : ℚ
  bottomRightX : ℚ
  bottomRightY : ℚ
  deriving Repr, DecidableEq

/-- Modelled from the spec: the `XDragBoxLayer` component itself is not
among the source files, only its test suite is.  The spec describes a drag
box layer as an overlay whose selection region can be drawn, resized or
moved via pointer drag gestures, constrained along one axis; the X variant
constrains the region to the x axis, so the box always spans the full
component height. -/
structure XDragBoxLayer where
  height : ℚ
  box : Bounds
  deriving Repr, DecidableEq

/-- Which vertical edge of the box a resize gesture grabs. -/
inductive XEdge where
  | left
  | right
  deriving Repr, DecidableEq

/-- Modelled from the spec: `bounds(newBounds)` stores the requested x
coordinates and constrains the y coordinates to the full component height
(top edge at `0`, bottom edge at `height`), as asserted by the
`bounds()` test. -/
def XDragBoxLayer.setBounds (l : XDragBoxLayer) (b : Bounds) :
    XDragBoxLayer :=
  { l with
    box :=
      { topLeftX := b.topLeftX
        topLeftY := 0
        bottomRightX := b.bottomRightX
        bottomRightY := l.height } }

/-- Modelled from the spec: a resize drag gesture grabbing one vertical edge
moves that edge to the x coordinate of the drag end point; the y extent
stays constrained to the full height, as asserted by the
`resizes only in x` test. -/
def XDragBoxLayer.resize (l : XDragBoxLayer) (edge : XEdge)
    (dragEndX _dragEndY : ℚ) : XDragBoxLayer :=
  match edge with
  | XEdge.left =>
    { l with
      box :=
        { topLeftX := dragEndX
          topLeftY := 0
          bottomRightX := l.box.bottomRightX
          bottomRightY := l.height } }
  | XEdge.right =>
    { l with
      box :=
        { topLeftX := l.box.topLeftX
          topLeftY := 0
          bottomRightX := dragEndX
          bottomRightY := l.height } }

/-- Modelled from the spec: a move drag gesture translates both vertical
edges by the drag distance along x; the y component of the drag is ignored
and the y extent stays constrained to the full height, as asserted by the
`moves only in x` test. -/
def XDragBoxLayer.move (l : XDragBoxLayer) (dx _dy : ℚ) : XDragBoxLayer :=
  { l with
    box :=
      { topLeftX := l.box.topLeftX + dx
        topLeftY := 0
        bottomRightX := l.box.bottomRightX + dx
        bottomRightY := l.height } }

/-! ## Helper lemmas about the packing fold -/

/-- Folding `packStep` only moves entries around: the closed rows flattened,
followed by the current row, grow exactly by the entries consumed. -/
lemma packFold_join (lens : String → ℚ) (aw : ℚ) :
    ∀ (domain : List String) (acc : List (List String)) (cur : List String)
      (sl : ℚ),
      (domain.foldl (packStep lens aw) (acc, cur, sl)).1.flatten
          ++ (domain.foldl (packStep lens aw) (acc, cur, sl)).2.1
        = acc.flatten ++ (cur ++ domain)
  | [], acc, cur, sl => by simp
  | e :: rest, acc, cur, sl => by
    simp only [List.foldl_cons, packStep]
    split
    · rw [packFold_join lens aw rest]
      simp
    · rw [packFold_join lens aw rest]
      simp

/-- Concatenating the rows produced by `packRows` recovers the domain. -/
lemma packRows_join (lens : String → ℚ) (aw : ℚ) (domain : List String) :
    (packRows lens aw domain).flatten = domain := by
  have h := packFold_join lens aw domain [] [] aw
  simp only [List.flatten_nil, List.nil_append] at h
  simp only [packRows, List.flatten_append, List.flatten_cons, List.flatten_nil,
    List.append_nil]
  exact h

/-- Row-sum invariant of the packing fold: if every remaining entry fits the
available width, every closed row fits, the current row occupies exactly the
consumed space, and the remaining space is non-negative, then every row of
the final state fits the available width. -/
lemma packFold_sums (lens : String → ℚ) (aw : ℚ) (haw : 0 ≤ aw) :
    ∀ (domain : List String) (acc : List (List String)) (cur : List String)
      (sl : ℚ),
      (∀ e ∈ domain, lens e ≤ aw) →
      (∀ r ∈ acc, rowSum lens r ≤ aw) →
      rowSum lens cur = aw - sl →
      0 ≤ sl →
      ∀ r ∈ (domain.foldl (packStep lens aw) (acc, cur, sl)).1
          ++ [(domain.foldl (packStep lens aw) (acc, cur, sl)).2.1],
        rowSum lens r ≤ aw
  | [], acc, cur, sl => by
    intro _ hacc hcur hsl r hr
    simp only [List.foldl_nil, List.mem_append, List.mem_singleton] at hr
    rcases hr with hr | hr
    · exact hacc r hr
    · subst hr
      rw [hcur]
      linarith
  | e :: rest, acc, cur, sl => by
    intro hdom hacc hcur hsl
    have he : lens e ≤ aw := hdom e (by simp)
    have hrest : ∀ x ∈ rest, lens x ≤ aw := fun x hx => hdom x (by simp [hx])
    simp only [List.foldl_cons, packStep]
    split
    · -- new row allocated
      refine packFold_sums lens aw haw rest (acc ++ [cur]) [e] (aw - lens e)
        hrest ?_ ?_ ?_
      · intro r hr
        simp only [List.mem_append, List.mem_singleton] at hr
        rcases hr with hr | hr
        · exact hacc r hr
        · subst hr
          rw [hcur]
          linarith
      · simp [rowSum]
      · linarith
    · -- entry appended to the current row
      rename_i hfits
      push_neg at hfits
      refine packFold_sums lens aw haw rest acc (cur ++ [e]) (sl - lens e)
        hrest hacc ?_ ?_
      · simp only [rowSum, List.map_append, List.sum_append, List.map_cons,
          List.map_nil, List.sum_cons, List.sum_nil]
        rw [rowSum] at hcur
        rw [hcur]
        ring
      · linarith

/-- The packing fold agrees with the explicitly recursive single pass. -/
lemma packFold_eq_rec (lens : String → ℚ) (aw : ℚ) :
    ∀ (domain : List String) (acc : List (List String)) (cur : List String)
      (sl : ℚ),
      (domain.foldl (packStep lens aw) (acc, cur, sl)).1
          ++ [(domain.foldl (packStep lens aw) (acc, cur, sl)).2.1]
        = packRowsRec lens aw acc cur sl domain
  | [], acc, cur, sl => by simp [packRowsRec]
  | e :: rest, acc, cur, sl => by
    simp only [List.foldl_cons, packStep, packRowsRec]
    split
    · exact packFold_eq_rec lens aw rest (acc ++ [cur]) [e] (aw - lens e)
    · exact packFold_eq_rec lens aw rest acc (cur ++ [e]) (sl - lens e)

/-! ## Claim theorems -/

/-- C1: `packRows` is a greedy single left-to-right pass.  Under the loop
invariant `spaceLeft = availableWidth - rowSum currentRow`, a step appends
the entry to the current row when it fits in the remaining space, and starts
a new row exactly when adding the entry would push the accumulated row width
past the available width; consequently, for the entry lengths produced by
`sizeEntries` (each clamped to at most the available width) and a
non-negative available width, the entry lengths of every produced row sum to
at most the available width. -/
theorem sizeEntries_packRows_rows_fit (measure : String → ℚ)
    (textHeight padding : ℚ) (domain : List String) (aw : ℚ) (haw : 0 ≤ aw) :
    (∀ (acc : List (List String)) (cur : List String) (sl : ℚ) (e : String),
      sl = aw - rowSum (sizeEntries measure textHeight padding domain aw).1 cur →
      packStep (sizeEntries measure textHeight padding domain aw).1 aw
          (acc, cur, sl) e =
        if aw < rowSum (sizeEntries measure textHeight padding domain aw).1 cur
              + (sizeEntries measure textHeight padding domain aw).1 e
        then (acc ++ [cur], [e],
              aw - (sizeEntries measure textHeight padding domain aw).1 e)
        else (acc, cur ++ [e],
              sl - (sizeEntries measure textHeight padding domain aw).1 e)) ∧
    ∀ r ∈ (sizeEntries measure textHeight padding domain aw).2,
      rowSum (sizeEntries measure textHeight padding domain aw).1 r ≤ aw := by
  set lens := (sizeEntries measure textHeight padding domain aw).1 with hlensdef
  constructor
  · intro acc cur sl e hsl
    subst hsl
    simp only [packStep]
    split_ifs with h1 h2 h2
    · rfl
    · exact absurd (by linarith) h2
    · exact absurd (by linarith) h1
    · rfl
  · have hlens : ∀ e ∈ domain, lens e ≤ aw := by
      intro e _
      simp only [hlensdef, sizeEntries, entryLength]
      exact min_le_right _ _
    have h := packFold_sums lens aw haw domain [] [] aw hlens
      (by simp) (by simp [rowSum]) haw
    intro r hr
    exact h r (by simpa [sizeEntries, packRows, hlensdef] using hr)

/-- Witness for the C1 theorem: three entries measured to width 0 (so each
entry length is min(1 + 0 + 5, 10) = 6) packed into width 10 give one entry
per row, each row total within 10. -/
theorem sizeEntries_packRows_rows_fit_witness :
    (0 ≤ (10 : ℚ)) ∧
    ((∀ (acc : List (List String)) (cur : List String) (sl : ℚ) (e : String),
      sl = 10 - rowSum (sizeEntries (fun _ => 0) 1 5 ["a", "b", "c"] 10).1 cur →
      packStep (sizeEntries (fun _ => 0) 1 5 ["a", "b", "c"] 10).1 10
          (acc, cur, sl) e =
        if 10 < rowSum (sizeEntries (fun _ => 0) 1 5 ["a", "b", "c"] 10).1 cur
              + (sizeEntries (fun _ => 0) 1 5 ["a", "b", "c"] 10).1 e
        then (acc ++ [cur], [e],
              10 - (sizeEntries (fun _ => 0) 1 5 ["a", "b", "c"] 10).1 e)
        else (acc, cur ++ [e],
              sl - (sizeEntries (fun _ => 0) 1 5 ["a", "b", "c"] 10).1 e)) ∧
    ∀ r ∈ (sizeEntries (fun _ => 0) 1 5 ["a", "b", "c"] 10).2,
      rowSum (sizeEntries (fun _ => 0) 1 5 ["a", "b", "c"] 10).1 r ≤ 10) :=
  ⟨by norm_num,
   sizeEntries_packRows_rows_fit (fun _ => 0) 1 5 ["a", "b", "c"] 10
     (by norm_num)⟩

/-- C2: every entry length computed by `sizeEntries` is clamped by
`Math.min` to the available width, so no entry of the color-scale domain has
a rendered width exceeding a non-negative available width. -/
theorem sizeEntries_entryLength_clamped (measure : String → ℚ)
    (textHeight padding : ℚ) (domain : List String) (availableWidth : ℚ)
    (haw : 0 ≤ availableWidth) (e : String) (he : e ∈ domain) :
    (sizeEntries measure textHeight padding domain availableWidth).1 e
      ≤ availableWidth := by
  simp only [sizeEntries, entryLength]
  exact min_le_right _ _

/-- Witness for the C2 theorem: an entry measured far wider than the
available width 10 still gets entry length at most 10. -/
theorem sizeEntries_entryLength_clamped_witness :
    (0 ≤ (10 : ℚ)) ∧ "a" ∈ ["a", "b"] ∧
    (sizeEntries (fun _ => 100) 3 5 ["a", "b"] 10).1 "a" ≤ 10 :=
  ⟨by norm_num, by decide,
   sizeEntries_entryLength_clamped (fun _ => 100) 3 5 ["a", "b"] 10
     (by norm_num) "a" (by decide)⟩

/-- C3: the DataSource accessors notify exactly on mutation: a setter call
with a non-null argument stores the new value, leaves the other field
unchanged, broadcasts exactly once and returns the object itself; a getter
call returns the stored value, changes no state and broadcasts nothing. -/
theorem dataSource_notifies_exactly_on_mutation {α μ : Type}
    (ds : DataSource α μ) (d : List α) (m : μ) :
    ((DataSource.data ds (some d)).1._data = some d ∧
     (DataSource.data ds (some d)).1._metadata = ds._metadata ∧
     (DataSource.data ds (some d)).1.broadcastCount = ds.broadcastCount + 1 ∧
     (DataSource.data ds (some d)).2 = Sum.inr (DataSource.data ds (some d)).1) ∧
    ((DataSource.metadata ds (some m)).1._metadata = some m ∧
     (DataSource.metadata ds (some m)).1._data = ds._data ∧
     (DataSource.metadata ds (some m)).1.broadcastCount
        = ds.broadcastCount + 1 ∧
     (DataSource.metadata ds (some m)).2
        = Sum.inr (DataSource.metadata ds (some m)).1) ∧
    DataSource.data ds none = (ds, Sum.inl ds._data) ∧
    DataSource.metadata ds none = (ds, Sum.inl ds._metadata) :=
  ⟨⟨rfl, rfl, rfl, rfl⟩, ⟨rfl, rfl, rfl, rfl⟩, rfl, rfl⟩

/-- C4: the XDragBoxLayer box is constrained to the x axis: after setting
bounds, after a resize drag and after a move drag the top edge is at 0 and
the bottom edge at the component height; a move shifts both x coordinates by
the drag distance, and a resize moves only the dragged edge to the drag end
x coordinate. -/
theorem xDragBoxLayer_constrained_to_x (l : XDragBoxLayer) (b : Bounds)
    (edge : XEdge) (ex ey dx dy : ℚ) :
    ((l.setBounds b).box.topLeftY = 0 ∧
     (l.setBounds b).box.bottomRightY = (l.setBounds b).height ∧
     (l.setBounds b).box.topLeftX = b.topLeftX ∧
     (l.setBounds b).box.bottomRightX = b.bottomRightX) ∧
    ((l.resize edge ex ey).box.topLeftY = 0 ∧
     (l.resize edge ex ey).box.bottomRightY = (l.resize edge ex ey).height ∧
     (match edge with
      | XEdge.left =>
        (l.resize edge ex ey).box.topLeftX = ex ∧
        (l.resize edge ex ey).box.bottomRightX = l.box.bottomRightX
      | XEdge.right =>
        (l.resize edge ex ey).box.topLeftX = l.box.topLeftX ∧
        (l.resize edge ex ey).box.bottomRightX = ex)) ∧
    ((l.move dx dy).box.topLeftY = 0 ∧
     (l.move dx dy).box.bottomRightY = (l.move dx dy).height ∧
     (l.move dx dy).box.topLeftX = l.box.topLeftX + dx ∧
     (l.move dx dy).box.bottomRightX = l.box.bottomRightX + dx) := by
  cases edge <;>
    exact ⟨⟨rfl, rfl, rfl, rfl⟩, ⟨rfl, rfl, rfl, rfl⟩, rfl, rfl, rfl, rfl⟩

/-- C5: on an empty color-scale domain the legend layout succeeds without
error: `packRows` returns exactly one row, which is empty,
`_requestedSpace` returns width equal to the padding (5), and the desired
height it reports for the `wantsHeight` comparison equals one text row plus
twice the padding; every operation involved is a total function, so nothing
fails on the empty input. -/
theorem legend_empty_domain (measure : String → ℚ)
    (textHeight offeredWidth offeredHeight : ℚ) (lens : String → ℚ)
    (aw : ℚ) :
    packRows lens aw [] = [[]] ∧
    (requestedSpace measure textHeight legendPadding [] offeredWidth
        offeredHeight).width = legendPadding ∧
    legendPadding = 5 ∧
    desiredHeight textHeight legendPadding (packRows lens aw []).length
      = textHeight + 2 * legendPadding ∧
    (requestedSpace measure textHeight legendPadding [] offeredWidth
        offeredHeight).wantsHeight
      = decide (offeredHeight < textHeight + 2 * legendPadding) := by
  refine ⟨rfl, ?_, rfl, ?_, ?_⟩
  · simp [requestedSpace, sizeEntries, packRows, rowSum, d3max]
  · simp [packRows, desiredHeight]
  · simp [requestedSpace, sizeEntries, packRows, desiredHeight]

/-- C6: `packRows` is a bounded single pass: it coincides with the
structurally recursive `packRowsRec`, which takes exactly one step per
domain entry and hence terminates on every finite domain, and the produced
rows contain exactly as many entries as the domain, so each entry is visited
exactly once. -/
theorem packRows_single_pass (lens : String → ℚ) (aw : ℚ)
    (domain : List String) :
    packRows lens aw domain = packRowsRec lens aw [] [] aw domain ∧
    ((packRows lens aw domain).map List.length).sum = domain.length := by
  constructor
  · simpa [packRows] using packFold_eq_rec lens aw domain [] [] aw
  · rw [← List.length_flatten, packRows_join]

/-- C7 counterexample: at offeredHeight 0, padding 5, textHeight 1 (so the
precondition offeredHeight ≥ 2 * padding fails) `numRowsToDraw` is the
negative value -10, yet the height returned by `_requestedSpace` is 0, which
does not exceed the offered height 0: the claimed bound failure does not
occur. -/
theorem requestedSpace_negative_numRows_still_bounded :
    numRowsToDraw 0 5 1 1 = some (-10) ∧ (-10 : ℤ) < 0 ∧
    (requestedSpace (fun _ => 0) 1 5 ["a", "b", "c"] 5 0).height = some 0 ∧
    (0 : ℚ) ≤ 0 := by
  refine ⟨?_, by norm_num, ?_, le_refl 0⟩
  · simp only [numRowsToDraw]
    norm_num
  · simp only [requestedSpace, sizeEntries, acceptableHeight, numRowsToDraw,
      packRows, packStep, entryLength, List.foldl_cons, List.foldl_nil]
    norm_num

/-- C7 amended: for positive textHeight the height returned by
`_requestedSpace` equals numRowsToDraw * textHeight + 2 * padding, where
numRowsToDraw = min(floor((offeredHeight - 2 * padding) / textHeight),
rows.length); this height never exceeds offeredHeight, for every
offeredHeight (even below 2 * padding, where numRowsToDraw can be
negative); when moreover offeredHeight ≥ 2 * padding, numRowsToDraw is
non-negative. -/
theorem requestedSpace_height_le_offered (measure : String → ℚ)
    (textHeight padding : ℚ) (domain : List String)
    (offeredWidth offeredHeight : ℚ) (hth : 0 < textHeight) :
    ∃ n : ℤ,
      n = min ⌊(offeredHeight - 2 * padding) / textHeight⌋
            ((sizeEntries measure textHeight padding domain
                (max 0 (offeredWidth - padding))).2.length : ℤ) ∧
      (requestedSpace measure textHeight padding domain offeredWidth
          offeredHeight).height
        = some ((n : ℚ) * textHeight + 2 * padding) ∧
      (n : ℚ) * textHeight + 2 * padding ≤ offeredHeight ∧
      (2 * padding ≤ offeredHeight → 0 ≤ n) := by
  refine ⟨min ⌊(offeredHeight - 2 * padding) / textHeight⌋
    ((sizeEntries measure textHeight padding domain
        (max 0 (offeredWidth - padding))).2.length : ℤ), rfl, ?_, ?_, ?_⟩
  · simp only [requestedSpace, acceptableHeight, numRowsToDraw, if_neg hth.ne']
    rfl
  · have h1 : ((min ⌊(offeredHeight - 2 * padding) / textHeight⌋
        ((sizeEntries measure textHeight padding domain
            (max 0 (offeredWidth - padding))).2.length : ℤ) : ℤ) : ℚ)
        ≤ (offeredHeight - 2 * padding) / textHeight := by
      calc ((min ⌊(offeredHeight - 2 * padding) / textHeight⌋
            ((sizeEntries measure textHeight padding domain
                (max 0 (offeredWidth - padding))).2.length : ℤ) : ℤ) : ℚ)
          ≤ ((⌊(offeredHeight - 2 * padding) / textHeight⌋ : ℤ) : ℚ) := by
            exact_mod_cast min_le_left _ _
        _ ≤ (offeredHeight - 2 * padding) / textHeight := Int.floor_le _
    have h2 := mul_le_mul_of_nonneg_right h1 hth.le
    rw [div_mul_cancel₀ _ hth.ne'] at h2
    linarith
  · intro hpre
    have hq : 0 ≤ (offeredHeight - 2 * padding) / textHeight :=
      div_nonneg (by linarith) hth.le
    exact le_min (Int.floor_nonneg.mpr hq) (Int.natCast_nonneg _)

/-- Witness for the amended C7 theorem at textHeight 1, padding 5, empty
domain, offeredWidth 0 and offeredHeight 20. -/
theorem requestedSpace_height_le_offered_witness :
    (0 : ℚ) < 1 ∧
    ∃ n : ℤ,
      n = min ⌊((20 : ℚ) - 2 * 5) / 1⌋
            ((sizeEntries (fun _ => 0) 1 5 []
                (max 0 ((0 : ℚ) - 5))).2.length : ℤ) ∧
      (requestedSpace (fun _ => 0) 1 5 [] 0 20).height
        = some ((n : ℚ) * 1 + 2 * 5) ∧
      (n : ℚ) * 1 + 2 * 5 ≤ 20 ∧
      (2 * 5 ≤ (20 : ℚ) → 0 ≤ n) :=
  ⟨by norm_num,
   requestedSpace_height_le_offered (fun _ => 0) 1 5 [] 0 20 (by norm_num)⟩

/-- C8: `packRows` preserves order and multiplicity: concatenating the
produced rows in order yields exactly the color-scale domain, for every
entry-length assignment and every available width. -/
theorem packRows_flatten_eq_domain (lens : String → ℚ) (aw : ℚ)
    (domain : List String) :
    (packRows lens aw domain).flatten = domain :=
  packRows_join lens aw domain

/-- C9: a null (or undefined) argument to `data` or `metadata` selects the
getter branch: it returns the stored value, changes no state and sends no
notification; consequently the stored data or metadata can be null after a
call only if it already was, so these methods cannot set it to null. -/
theorem dataSource_null_is_getter {α μ : Type} (ds : DataSource α μ)
    (argD : Option (List α)) (argM : Option μ) :
    DataSource.data ds none = (ds, Sum.inl ds._data) ∧
    DataSource.metadata ds none = (ds, Sum.inl ds._metadata) ∧
    ((DataSource.data ds argD).1._data = none ↔
      argD = none ∧ ds._data = none) ∧
    ((DataSource.metadata ds argM).1._metadata = none ↔
      argM = none ∧ ds._metadata = none) := by
  refine ⟨rfl, rfl, ?_, ?_⟩
  · cases argD <;> simp [DataSource.data]
  · cases argM <;> simp [DataSource.metadata]

end Plottable
